import Mathlib

/-!
Verification of the hydraulic-network editor core: the topology store with
undo/redo history (src/client/src/lib/store.ts) and the layered-layout /
diagram-rendering engine (src/client/src/lib/diagram-generator.ts).

Conventions of the embedding:
* ids and type tags are `String`, as in the source (node/edge types are
  compared against string literals there, with fall-through default cases).
* numeric attributes are rationals (`Rat`): the source uses JS numbers on
  values such as 0.01 and 0.5; claims under verification do not depend on
  binary floating-point artifacts, so exact rationals are used.
* a JS `Record<string, T>` written by assignment is modelled as an
  association list `List (String × T)` where each assignment conses a new
  binding at the head and lookup takes the first (newest) binding.
* optional / possibly-undefined fields are `Option`.
-/

/-- JS record lookup: first (newest) binding wins, `none` for absent keys. -/
def recordGet {α : Type} : List (String × α) → String → Option α
  | [], _ => none
  | (k, v) :: rest, key => if key = k then some v else recordGet rest key

/-- A sequence of JS record assignments `m[k] = v`, each shadowing older
bindings by consing at the head. -/
def assignAll {α : Type} (m : List (String × α)) (xs : List (String × α)) :
    List (String × α) :=
  xs.foldl (fun acc kv => kv :: acc) m

/-- Editor-assigned position of a node (`position` in the store). -/
structure XYPosition where
  x : Rat
  y : Rat
  deriving DecidableEq

/-- `NodeData` of store.ts: label and type are required, the rest optional. -/
structure NodeData where
  label : String
  type : String
  elevation : Option Rat := none
  nodeNumber : Option Int := none
  comment : Option String := none
  topElevation : Option Rat := none
  bottomElevation : Option Rat := none
  diameter : Option Rat := none
  celerity : Option Rat := none
  friction : Option Rat := none
  scheduleNumber : Option Rat := none
  deriving DecidableEq

/-- The nested variable-attribute bag a loaded edge may carry
(`edge.data.variableData` in store.ts); flattened by `loadNetwork` onto the
top-level fields of `EdgeData`. -/
structure VariableBag where
  distance : Option Rat := none
  area : Option Rat := none
  d : Option Rat := none
  a : Option Rat := none
  deriving DecidableEq

/-- `EdgeData` of store.ts (the `variableData` bag is carried by edges that
come in through `loadNetwork` before being flattened). The TS interface
requires `label` and `type`; `variableFlag` renders the `variable` field
(`variable` is a Lean keyword). -/
structure EdgeData where
  label : String
  type : String
  length : Option Rat := none
  diameter : Option Rat := none
  celerity : Option Rat := none
  friction : Option Rat := none
  numSegments : Option Rat := none
  cplus : Option Rat := none
  cminus : Option Rat := none
  comment : Option String := none
  variableFlag : Option Bool := none
  distance : Option Rat := none
  area : Option Rat := none
  d : Option Rat := none
  a : Option Rat := none
  variableData : Option VariableBag := none
  deriving DecidableEq

/-- Visual style of an edge stroke (subset of the CSS set by store.ts). -/
structure EdgeStyle where
  stroke : String
  strokeWidth : Rat
  strokeDasharray : Option String := none
  deriving DecidableEq

/-- Arrow marker attached to an edge end (`MarkerType.ArrowClosed` is the
string `"arrowclosed"` in the library). -/
structure EdgeMarker where
  type : String
  color : String
  deriving DecidableEq

/-- `WhamoNode = Node<NodeData>`: `data` is required on library nodes. -/
structure WhamoNode where
  id : String
  type : String
  position : XYPosition
  data : NodeData
  deriving DecidableEq

/-- `WhamoEdge = Edge<EdgeData>`: `data`, `style`, `markerEnd` optional. -/
structure WhamoEdge where
  id : String
  source : String
  target : String
  type : Option String := none
  sourceHandle : Option String := none
  targetHandle : Option String := none
  style : Option EdgeStyle := none
  markerEnd : Option EdgeMarker := none
  data : Option EdgeData := none
  deriving DecidableEq

/-! ## Layout engine: level assignment (diagram-generator.ts lines 14-37) -/

/-- Forward adjacency list entry: `adj[u]` after
`edges.forEach(e => adj[e.source].push(e.target))` holds the targets of the
edges whose source is `u`, in edge-list order. -/
def adjTargets (edges : List WhamoEdge) (u : String) : List String :=
  (edges.filter (fun e => e.source = u)).map (fun e => e.target)

/-- Ids of the reservoir nodes, the BFS roots
(`diagramNodes.filter(n => n.type === 'reservoir')`). -/
def reservoirIds (nodes : List WhamoNode) : List String :=
  (nodes.filter (fun n => n.type = "reservoir")).map (fun n => n.id)

/-- `reservoirs.forEach(r => levels[r.id] = 0)`. -/
def initialLevels (nodes : List WhamoNode) : List (String × Nat) :=
  assignAll [] ((reservoirIds nodes).map (fun r => (r, 0)))

/-- The inner `neighbors.forEach` of the level loop: for each successor `v`
of the dequeued node `u`, first definition sets `levels[v] = levels[u] + 1`
and enqueues `v`; otherwise `levels[v] = max(levels[v], levels[u] + 1)`
WITHOUT re-enqueueing. `levels[u]` is re-read at every step (a self-loop can
raise it mid-iteration); `u` is always defined when dequeued, so the
`getD 0` default is never exercised. -/
def relaxNeighbors (u : String) :
    List String → List (String × Nat) → List String →
      List (String × Nat) × List String
  | [], levels, queue => (levels, queue)
  | v :: rest, levels, queue =>
      match recordGet levels v with
      | none =>
          relaxNeighbors u rest
            ((v, (recordGet levels u).getD 0 + 1) :: levels) (queue ++ [v])
      | some lv =>
          relaxNeighbors u rest
            ((v, max lv ((recordGet levels u).getD 0 + 1)) :: levels) queue

/-- The `while (queue.length > 0)` level-assignment loop, with explicit fuel
standing for the number of remaining permitted iterations; `none` means the
fuel ran out before the queue emptied. -/
def bfsLoop (edges : List WhamoEdge) :
    Nat → List String → List (String × Nat) → Option (List (String × Nat))
  | 0, _, _ => none
  | _ + 1, [], levels => some levels
  | fuel + 1, u :: rest, levels =>
      let step := relaxNeighbors u (adjTargets edges u) levels rest
      bfsLoop edges fuel step.2 step.1

/-- Fuel that provably suffices for the level loop: one per initially queued
root plus one per distinct edge target, plus one closing iteration. -/
def bfsFuel (nodes : List WhamoNode) (edges : List WhamoEdge) : Nat :=
  (reservoirIds nodes).length + ((edges.map (fun e => e.target)).dedup).length + 1

/-- The level map computed by the loop (`some` by `bfsLoop_terminates`). -/
def computeLevels (nodes : List WhamoNode) (edges : List WhamoEdge) :
    Option (List (String × Nat)) :=
  bfsLoop edges (bfsFuel nodes edges) (reservoirIds nodes) (initialLevels nodes)

/-- The final `levels` record of `generateSystemDiagramSVG`. -/
def levelsOf (nodes : List WhamoNode) (edges : List WhamoEdge) :
    List (String × Nat) :=
  (computeLevels nodes edges).getD (initialLevels nodes)

/-! ### Termination of the level loop -/

/-- Number of keys of `u` not yet bound in the record. -/
def undefCount (univ : List String) (levels : List (String × Nat)) : Nat :=
  (univ.filter (fun k => (recordGet levels k).isNone)).length

theorem recordGet_cons (k : String) (v : Nat) (levels : List (String × Nat))
    (key : String) :
    recordGet ((k, v) :: levels) key =
      if key = k then some v else recordGet levels key := rfl

theorem undefCount_cons_of_mem (univ : List String) (levels : List (String × Nat))
    (v : String) (x : Nat) (hnd : univ.Nodup) (hmem : v ∈ univ)
    (hnone : recordGet levels v = none) :
    undefCount univ ((v, x) :: levels) + 1 = undefCount univ levels := by
  induction univ with
  | nil => cases hmem
  | cons a rest ih =>
      rcases List.nodup_cons.mp hnd with ⟨hna, hndr⟩
      by_cases hav : a = v
      · subst hav
        have hrest : (rest.filter (fun k => (recordGet ((a, x) :: levels) k).isNone))
            = rest.filter (fun k => (recordGet levels k).isNone) := by
          apply List.filter_congr
          intro k hk
          have hk2 : ¬ (k = a) := fun h => hna (h ▸ hk)
          simp [recordGet_cons, hk2]
        have hhead : recordGet ((a, x) :: levels) a = some x := by
          simp [recordGet_cons]
        unfold undefCount
        rw [List.filter_cons, List.filter_cons, hrest]
        simp [hhead, hnone]
      · have hv : v ∈ rest := by
          rcases List.mem_cons.mp hmem with h | h
          · exact absurd h.symm hav
          · exact h
        have hga : recordGet ((v, x) :: levels) a = recordGet levels a := by
          simp [recordGet_cons, hav]
        have ihr := ih hndr hv
        simp only [undefCount, List.filter_cons] at ihr ⊢
        rw [hga]
        cases hcase : (recordGet levels a).isNone <;>
          simp only [hcase, if_pos, if_neg, Bool.false_eq_true,
            not_false_eq_true, List.length_cons, ite_true, ite_false] <;>
          omega

theorem undefCount_cons_of_some (univ : List String) (levels : List (String × Nat))
    (v : String) (x lv : Nat) (hsome : recordGet levels v = some lv) :
    undefCount univ ((v, x) :: levels) = undefCount univ levels := by
  unfold undefCount
  congr 1
  apply List.filter_congr
  intro k _
  by_cases hkv : k = v
  · subst hkv
    simp [recordGet_cons, hsome]
  · simp [recordGet_cons, hkv]

/-- Each pass of `relaxNeighbors` never increases the combined measure
`queue length + number of unbound universe keys`. -/
theorem relaxNeighbors_measure (univ : List String) (hnd : univ.Nodup)
    (u : String) :
    ∀ (ns : List String) (levels : List (String × Nat)) (queue : List String),
      (∀ v ∈ ns, v ∈ univ) →
      (relaxNeighbors u ns levels queue).2.length +
          undefCount univ (relaxNeighbors u ns levels queue).1 ≤
        queue.length + undefCount univ levels := by
  intro ns
  induction ns with
  | nil => intro levels queue _; simp [relaxNeighbors]
  | cons v rest ih =>
      intro levels queue hsub
      have hv : v ∈ univ := hsub v (List.mem_cons_self v rest)
      have hrest : ∀ w ∈ rest, w ∈ univ := fun w hw =>
        hsub w (List.mem_cons_of_mem v hw)
      cases hlk : recordGet levels v with
      | none =>
          have hstep := undefCount_cons_of_mem univ levels v
            ((recordGet levels u).getD 0 + 1) hnd hv hlk
          have hrec := ih ((v, (recordGet levels u).getD 0 + 1) :: levels)
            (queue ++ [v]) hrest
          have hgoal : (relaxNeighbors u (v :: rest) levels queue) =
              relaxNeighbors u rest
                ((v, (recordGet levels u).getD 0 + 1) :: levels) (queue ++ [v]) := by
            simp [relaxNeighbors, hlk]
          rw [hgoal]
          simp only [List.length_append, List.length_cons, List.length_nil] at hrec
          omega
      | some lv =>
          have hstep := undefCount_cons_of_some univ levels v
            (max lv ((recordGet levels u).getD 0 + 1)) lv hlk
          have hrec := ih ((v, max lv ((recordGet levels u).getD 0 + 1)) :: levels)
            queue hrest
          have hgoal : (relaxNeighbors u (v :: rest) levels queue) =
              relaxNeighbors u rest
                ((v, max lv ((recordGet levels u).getD 0 + 1)) :: levels) queue := by
            simp [relaxNeighbors, hlk]
          rw [hgoal]
          omega

/-- With fuel exceeding the measure, the level loop reaches the empty queue
(`isSome`): the while-loop of the layout engine terminates. -/
theorem bfsLoop_isSome (edges : List WhamoEdge) (univ : List String)
    (hnd : univ.Nodup) (hadj : ∀ u, ∀ v ∈ adjTargets edges u, v ∈ univ) :
    ∀ (fuel : Nat) (queue : List String) (levels : List (String × Nat)),
      queue.length + undefCount univ levels < fuel →
      (bfsLoop edges fuel queue levels).isSome := by
  intro fuel
  induction fuel with
  | zero => intro queue levels h; omega
  | succ n ih =>
      intro queue levels h
      cases queue with
      | nil => simp [bfsLoop]
      | cons u rest =>
          unfold bfsLoop
          apply ih
          have := relaxNeighbors_measure univ hnd u (adjTargets edges u)
            levels rest (hadj u)
          simp only [List.length_cons] at h
          omega

/-! ### Monotonicity and propagation facts about the level loop -/

/-- Pointwise ordering of level records: every bound key stays bound with a
level at least as large. -/
def levelsLE (m m2 : List (String × Nat)) : Prop :=
  ∀ k l, recordGet m k = some l → ∃ l2, recordGet m2 k = some l2 ∧ l ≤ l2

theorem levelsLE_refl (m : List (String × Nat)) : levelsLE m m :=
  fun _ l h => ⟨l, h, le_refl l⟩

theorem levelsLE_trans {m1 m2 m3 : List (String × Nat)}
    (h12 : levelsLE m1 m2) (h23 : levelsLE m2 m3) : levelsLE m1 m3 := by
  intro k l h
  obtain ⟨l2, h2, hle2⟩ := h12 k l h
  obtain ⟨l3, h3, hle3⟩ := h23 k l2 h2
  exact ⟨l3, h3, le_trans hle2 hle3⟩

theorem levelsLE_set (m : List (String × Nat)) (v : String) (x : Nat)
    (h : ∀ lv, recordGet m v = some lv → lv ≤ x) :
    levelsLE m ((v, x) :: m) := by
  intro k l hk
  by_cases hkv : k = v
  · subst hkv
    exact ⟨x, by simp [recordGet_cons], h l hk⟩
  · exact ⟨l, by simp [recordGet_cons, hkv, hk], le_refl l⟩

theorem relaxNeighbors_levelsLE (u : String) :
    ∀ (ns : List String) (m : List (String × Nat)) (q : List String),
      levelsLE m (relaxNeighbors u ns m q).1 := by
  intro ns
  induction ns with
  | nil => intro m q; simp [relaxNeighbors]; exact levelsLE_refl m
  | cons v rest ih =>
      intro m q
      cases hlk : recordGet m v with
      | none =>
          have h1 : levelsLE m ((v, (recordGet m u).getD 0 + 1) :: m) :=
            levelsLE_set m v _ (by intro lv h; rw [hlk] at h; cases h)
          have h2 := ih ((v, (recordGet m u).getD 0 + 1) :: m) (q ++ [v])
          have : relaxNeighbors u (v :: rest) m q =
              relaxNeighbors u rest ((v, (recordGet m u).getD 0 + 1) :: m) (q ++ [v]) := by
            simp [relaxNeighbors, hlk]
          rw [this]
          exact levelsLE_trans h1 h2
      | some lv =>
          have h1 : levelsLE m ((v, max lv ((recordGet m u).getD 0 + 1)) :: m) :=
            levelsLE_set m v _ (by
              intro lv2 h
              rw [hlk] at h
              cases h
              exact le_max_left _ _)
          have h2 := ih ((v, max lv ((recordGet m u).getD 0 + 1)) :: m) q
          have : relaxNeighbors u (v :: rest) m q =
              relaxNeighbors u rest ((v, max lv ((recordGet m u).getD 0 + 1)) :: m) q := by
            simp [relaxNeighbors, hlk]
          rw [this]
          exact levelsLE_trans h1 h2

theorem bfsLoop_levelsLE (edges : List WhamoEdge) :
    ∀ (fuel : Nat) (q : List String) (m L : List (String × Nat)),
      bfsLoop edges fuel q m = some L → levelsLE m L := by
  intro fuel
  induction fuel with
  | zero => intro q m L h; cases h
  | succ n ih =>
      intro q m L h
      cases q with
      | nil =>
          simp [bfsLoop] at h
          subst h
          exact levelsLE_refl m
      | cons u rest =>
          unfold bfsLoop at h
          exact levelsLE_trans (relaxNeighbors_levelsLE u (adjTargets edges u) m rest)
            (ih _ _ _ h)

theorem relaxNeighbors_queue_sub (u : String) :
    ∀ (ns : List String) (m : List (String × Nat)) (q : List String),
      ∀ x ∈ q, x ∈ (relaxNeighbors u ns m q).2 := by
  intro ns
  induction ns with
  | nil => intro m q x hx; simpa [relaxNeighbors] using hx
  | cons v rest ih =>
      intro m q x hx
      cases hlk : recordGet m v with
      | none =>
          have : relaxNeighbors u (v :: rest) m q =
              relaxNeighbors u rest ((v, (recordGet m u).getD 0 + 1) :: m) (q ++ [v]) := by
            simp [relaxNeighbors, hlk]
          rw [this]
          exact ih _ _ x (List.mem_append_left _ hx)
      | some lv =>
          have : relaxNeighbors u (v :: rest) m q =
              relaxNeighbors u rest ((v, max lv ((recordGet m u).getD 0 + 1)) :: m) q := by
            simp [relaxNeighbors, hlk]
          rw [this]
          exact ih _ _ x hx

/-- After the inner forEach over the successors of `u`, every successor is
bound to a level of at least 1. -/
theorem relaxNeighbors_target_pos (u : String) :
    ∀ (ns : List String) (m : List (String × Nat)) (q : List String),
      ∀ v ∈ ns, ∃ lv, recordGet (relaxNeighbors u ns m q).1 v = some lv ∧ 1 ≤ lv := by
  intro ns
  induction ns with
  | nil => intro m q v hv; cases hv
  | cons w rest ih =>
      intro m q v hv
      cases hlk : recordGet m w with
      | none =>
          have heq : relaxNeighbors u (w :: rest) m q =
              relaxNeighbors u rest ((w, (recordGet m u).getD 0 + 1) :: m) (q ++ [w]) := by
            simp [relaxNeighbors, hlk]
          rw [heq]
          rcases List.mem_cons.mp hv with rfl | hvr
          · have hset : recordGet ((v, (recordGet m u).getD 0 + 1) :: m) v =
                some ((recordGet m u).getD 0 + 1) := by simp [recordGet_cons]
            obtain ⟨l2, h2, hle⟩ :=
              relaxNeighbors_levelsLE u rest ((v, (recordGet m u).getD 0 + 1) :: m)
                (q ++ [v]) v _ hset
            exact ⟨l2, h2, by omega⟩
          · exact ih _ _ v hvr
      | some lw =>
          have heq : relaxNeighbors u (w :: rest) m q =
              relaxNeighbors u rest ((w, max lw ((recordGet m u).getD 0 + 1)) :: m) q := by
            simp [relaxNeighbors, hlk]
          rw [heq]
          rcases List.mem_cons.mp hv with rfl | hvr
          · have hset : recordGet ((v, max lw ((recordGet m u).getD 0 + 1)) :: m) v =
                some (max lw ((recordGet m u).getD 0 + 1)) := by simp [recordGet_cons]
            obtain ⟨l2, h2, hle⟩ :=
              relaxNeighbors_levelsLE u rest
                ((v, max lw ((recordGet m u).getD 0 + 1)) :: m) q v _ hset
            refine ⟨l2, h2, ?_⟩
            have : 1 ≤ max lw ((recordGet m u).getD 0 + 1) :=
              le_trans (by omega) (le_max_right _ _)
            omega
          · exact ih _ _ v hvr

/-- A key newly bound by the inner forEach was enqueued there. -/
theorem relaxNeighbors_new_in_queue (u : String) :
    ∀ (ns : List String) (m : List (String × Nat)) (q : List String) (k : String),
      recordGet m k = none → (recordGet (relaxNeighbors u ns m q).1 k).isSome →
      k ∈ (relaxNeighbors u ns m q).2 := by
  intro ns
  induction ns with
  | nil =>
      intro m q k hnone hsome
      simp [relaxNeighbors] at hsome ⊢
      rw [hnone] at hsome
      cases hsome
  | cons v rest ih =>
      intro m q k hnone hsome
      cases hlk : recordGet m v with
      | none =>
          have heq : relaxNeighbors u (v :: rest) m q =
              relaxNeighbors u rest ((v, (recordGet m u).getD 0 + 1) :: m) (q ++ [v]) := by
            simp [relaxNeighbors, hlk]
          rw [heq] at hsome ⊢
          by_cases hkv : k = v
          · subst hkv
            exact relaxNeighbors_queue_sub u rest _ _ k
              (List.mem_append_right _ (List.mem_singleton_self k))
          · have hnone2 : recordGet ((v, (recordGet m u).getD 0 + 1) :: m) k = none := by
              simp [recordGet_cons, hkv, hnone]
            exact ih _ _ k hnone2 hsome
      | some lv =>
          have heq : relaxNeighbors u (v :: rest) m q =
              relaxNeighbors u rest ((v, max lv ((recordGet m u).getD 0 + 1)) :: m) q := by
            simp [relaxNeighbors, hlk]
          rw [heq] at hsome ⊢
          have hkv : ¬ (k = v) := by
            intro h
            subst h
            rw [hnone] at hlk
            cases hlk
          have hnone2 : recordGet ((v, max lv ((recordGet m u).getD 0 + 1)) :: m) k =
              none := by
            simp [recordGet_cons, hkv, hnone]
          exact ih _ _ k hnone2 hsome

/-- Loop invariant tying levelled edge sources to their targets: a levelled
source is either still awaiting processing in the queue, or its target is
already bound to a level of at least 1. -/
def EdgeInv (edges : List WhamoEdge) (q : List String)
    (m : List (String × Nat)) : Prop :=
  ∀ e ∈ edges, (recordGet m e.source).isSome →
    e.source ∈ q ∨ ∃ lv, recordGet m e.target = some lv ∧ 1 ≤ lv

theorem edgeInv_step (edges : List WhamoEdge) (u : String) (rest : List String)
    (m : List (String × Nat)) (hinv : EdgeInv edges (u :: rest) m) :
    EdgeInv edges (relaxNeighbors u (adjTargets edges u) m rest).2
      (relaxNeighbors u (adjTargets edges u) m rest).1 := by
  intro e he hsome
  cases hold : recordGet m e.source with
  | some l =>
      rcases hinv e he (by rw [hold]; rfl) with hq | ⟨lv, hlv, hlv1⟩
      · rcases List.mem_cons.mp hq with hequ | hqrest
        · right
          apply relaxNeighbors_target_pos u (adjTargets edges u) m rest
          unfold adjTargets
          rw [← hequ]
          exact List.mem_map_of_mem _ (List.mem_filter.mpr ⟨he, by simp⟩)
        · left
          exact relaxNeighbors_queue_sub u (adjTargets edges u) m rest _ hqrest
      · right
        obtain ⟨l2, h2, hle⟩ :=
          relaxNeighbors_levelsLE u (adjTargets edges u) m rest e.target lv hlv
        exact ⟨l2, h2, le_trans hlv1 hle⟩
  | none =>
      left
      exact relaxNeighbors_new_in_queue u (adjTargets edges u) m rest e.source
        hold hsome

theorem bfsLoop_edgeInv (edges : List WhamoEdge) :
    ∀ (fuel : Nat) (q : List String) (m L : List (String × Nat)),
      EdgeInv edges q m → bfsLoop edges fuel q m = some L →
      ∀ e ∈ edges, (recordGet L e.source).isSome →
        ∃ lv, recordGet L e.target = some lv ∧ 1 ≤ lv := by
  intro fuel
  induction fuel with
  | zero => intro q m L _ h; cases h
  | succ n ih =>
      intro q m L hinv h
      cases q with
      | nil =>
          simp [bfsLoop] at h
          subst h
          intro e he hsome
          rcases hinv e he hsome with hq | hdone
          · cases hq
          · exact hdone
      | cons u rest =>
          unfold bfsLoop at h
          exact ih _ _ _ (edgeInv_step edges u rest m hinv) h

theorem recordGet_assignAll_isSome {α : Type} :
    ∀ (xs : List (String × α)) (m : List (String × α)) (k : String),
      (recordGet (assignAll m xs) k).isSome →
      (recordGet m k).isSome ∨ ∃ p ∈ xs, p.1 = k := by
  intro xs
  induction xs with
  | nil => intro m k h; exact Or.inl h
  | cons x rest ih =>
      intro m k h
      have hfold : assignAll m (x :: rest) = assignAll (x :: m) rest := rfl
      rw [hfold] at h
      rcases ih (x :: m) k h with hm | ⟨p, hp, hpk⟩
      · by_cases hkx : k = x.1
        · exact Or.inr ⟨x, List.mem_cons_self x rest, hkx.symm⟩
        · left
          have : recordGet (x :: m) k = recordGet m k := by
            obtain ⟨k1, v1⟩ := x
            simp only [recordGet] at hkx ⊢
            simp [hkx]
          rwa [this] at hm
      · exact Or.inr ⟨p, List.mem_cons_of_mem x hp, hpk⟩

theorem initialLevels_mem (nodes : List WhamoNode) (k : String)
    (h : (recordGet (initialLevels nodes) k).isSome) : k ∈ reservoirIds nodes := by
  rcases recordGet_assignAll_isSome _ [] k h with hm | ⟨p, hp, hpk⟩
  · simp [recordGet] at hm
  · obtain ⟨r, hr, hrp⟩ := List.mem_map.mp hp
    rw [← hpk, ← hrp]
    exact hr

/-- Shorthand for a bare node of a given type (layout claims ignore the
editor position and data payload). -/
def mkNode (id ty : String) : WhamoNode :=
  { id := id, type := ty, position := ⟨0, 0⟩, data := { label := "", type := ty } }

/-- Shorthand for a bare edge. -/
def mkEdge (id s t : String) : WhamoEdge :=
  { id := id, source := s, target := t }

/-- C10: The layout engine's level-assignment loop terminates on every finite
input graph, including graphs containing cycles: a node is enqueued only at
the moment its level is first defined (so at most once per node), and a node
whose level is merely raised is not re-enqueued. Formally, the fuel
`bfsFuel` — one unit per root plus one per distinct edge target plus one —
always suffices for the while-loop to drain its queue. -/
theorem levelAssignment_terminates (nodes : List WhamoNode)
    (edges : List WhamoEdge) : (computeLevels nodes edges).isSome := by
  unfold computeLevels
  apply bfsLoop_isSome edges ((edges.map (fun e => e.target)).dedup)
    (List.nodup_dedup _)
  · intro u v hv
    rw [List.mem_dedup]
    unfold adjTargets at hv
    obtain ⟨e, he, hev⟩ := List.mem_map.mp hv
    exact hev ▸ List.mem_map_of_mem _ (List.mem_filter.mp he).1
  · have hle : undefCount ((edges.map (fun e => e.target)).dedup)
        (initialLevels nodes) ≤ ((edges.map (fun e => e.target)).dedup).length :=
      List.length_filter_le _ _
    unfold bfsFuel
    omega

/-- C1 (amended): for every edge `(u, v)` whose source `u` is assigned a
level, the target `v` is also assigned a level, and that level is at least 1.
The claimed bound `level[v] ≥ level[u] + 1` does NOT hold in general (see the
counterexample): a node whose level is raised by `Math.max` is not
re-enqueued, so the raise never propagates to its successors. -/
theorem levels_edge_target_assigned (nodes : List WhamoNode)
    (edges : List WhamoEdge) (e : WhamoEdge) (he : e ∈ edges)
    (hs : (recordGet (levelsOf nodes edges) e.source).isSome) :
    ∃ lv, recordGet (levelsOf nodes edges) e.target = some lv ∧ 1 ≤ lv := by
  have hterm := levelAssignment_terminates nodes edges
  obtain ⟨L, hL⟩ := Option.isSome_iff_exists.mp hterm
  have hlev : levelsOf nodes edges = L := by
    unfold levelsOf
    rw [hL]
    rfl
  rw [hlev] at hs ⊢
  apply bfsLoop_edgeInv edges (bfsFuel nodes edges) (reservoirIds nodes)
    (initialLevels nodes) L ?_ hL e he hs
  intro e2 _ hsome2
  exact Or.inl (initialLevels_mem nodes e2.source hsome2)

/-- Witness for `levels_edge_target_assigned`: in the one-edge graph
reservoir `r` → junction `a`, the source is levelled and the target receives
a level of at least 1 (in fact exactly 1). -/
theorem levels_edge_target_assigned_witness :
    mkEdge "1" "r" "a" ∈ [mkEdge "1" "r" "a"] ∧
    (recordGet (levelsOf [mkNode "r" "reservoir", mkNode "a" "junction"]
      [mkEdge "1" "r" "a"]) "r").isSome ∧
    ∃ lv, recordGet (levelsOf [mkNode "r" "reservoir", mkNode "a" "junction"]
      [mkEdge "1" "r" "a"]) "a" = some lv ∧ 1 ≤ lv :=
  ⟨by decide, by decide,
    levels_edge_target_assigned
      [mkNode "r" "reservoir", mkNode "a" "junction"] [mkEdge "1" "r" "a"]
      (mkEdge "1" "r" "a") (by decide) (by decide)⟩

/-- Counterexample to C1 as stated. In the graph with reservoir `r`,
junctions `a`, `b`, `c` and edges `r→b`, `r→a`, `a→b`, `b→c`: node `b` is
dequeued at level 1 and assigns `c` level 2; afterwards processing `a`
raises `b` to level 2 without re-enqueueing it, so the edge `(b, c)` ends
with `level[c] = 2 < level[b] + 1 = 3` although both `b` and `c` are
reachable from the reservoir; `b` also fails to converge to its maximum
path length from the root propagated onward. -/
theorem levels_monotone_counterexample :
    mkEdge "4" "b" "c" ∈
      [mkEdge "1" "r" "b", mkEdge "2" "r" "a", mkEdge "3" "a" "b",
        mkEdge "4" "b" "c"] ∧
    recordGet (levelsOf
      [mkNode "r" "reservoir", mkNode "a" "junction", mkNode "b" "junction",
        mkNode "c" "junction"]
      [mkEdge "1" "r" "b", mkEdge "2" "r" "a", mkEdge "3" "a" "b",
        mkEdge "4" "b" "c"]) "b" = some 2 ∧
    recordGet (levelsOf
      [mkNode "r" "reservoir", mkNode "a" "junction", mkNode "b" "junction",
        mkNode "c" "junction"]
      [mkEdge "1" "r" "b", mkEdge "2" "r" "a", mkEdge "3" "a" "b",
        mkEdge "4" "b" "c"]) "c" = some 2 ∧
    ¬ (2 + 1 ≤ 2) := by decide

/-! ## Diagram renderer (diagram-generator.ts lines 39-233)

String-building is transcribed literally (JS template literals become
concatenation, `\x7b`/`\x7d` escape literal braces); numeric interpolation
uses the exact rational value where JS would print a binary double. -/

/-- `options: { showLabels: boolean }`. -/
structure DiagramOptions where
  showLabels : Bool
  deriving DecidableEq

/-- `levels[n.id] || 0`: an unassigned level defaults to 0
(a stored level 0 is also falsy, and also yields 0). -/
def levelOfD (L : List (String × Nat)) (id : String) : Nat :=
  (recordGet L id).getD 0

/-- The distinct levels occurring among the nodes (the keys of `levelsMap`);
buckets are disjoint, so the enumeration order cannot affect the final
position record. -/
def distinctLevels (nodes : List WhamoNode) (L : List (String × Nat)) :
    List Nat :=
  (nodes.map (fun n => levelOfD L n.id)).dedup

/-- `levelsMap[lvl]`: ids of the nodes grouped into one level, in input
order. -/
def bucketIds (nodes : List WhamoNode) (L : List (String × Nat)) (lvl : Nat) :
    List String :=
  (nodes.filter (fun n => levelOfD L n.id = lvl)).map (fun n => n.id)

/-- Positions assigned within one level bucket:
`x = 80 + lvl*spacingX`, `y = startY + idx*spacingY` with
`startY = (750 - (count-1)*spacingY)/2`, `spacingX = 180`, `spacingY = 140`. -/
def bucketPositions (lvl : Nat) (ids : List String) :
    List (String × XYPosition) :=
  ids.enum.map (fun p =>
    (p.2, ⟨80 + (lvl : Rat) * 180,
      (750 - ((ids.length : Rat) - 1) * 140) / 2 + (p.1 : Rat) * 140⟩))

/-- All `posMap[id] = {x, y}` assignments, bucket by bucket. -/
def posEntries (nodes : List WhamoNode) (L : List (String × Nat)) :
    List (String × XYPosition) :=
  (distinctLevels nodes L).flatMap
    (fun lvl => bucketPositions lvl (bucketIds nodes L lvl))

/-- The final `posMap` record of the renderer. -/
def posMapOf (nodes : List WhamoNode) (edges : List WhamoEdge) :
    List (String × XYPosition) :=
  assignAll [] (posEntries nodes (levelsOf nodes edges))

/-- `svgWidth = Math.max(1300, (Object.keys(levelsMap).length + 1) * spacingX)`. -/
def svgWidthOf (nodes : List WhamoNode) (edges : List WhamoEdge) : Nat :=
  max 1300 (((distinctLevels nodes (levelsOf nodes edges)).length + 1) * 180)

/-- `svgHeight` is the fixed canvas height. -/
def svgHeight : Nat := 750

/-- `const findNode = (id) => nodes.find(n => n.id === id)`. -/
def findNode (nodes : List WhamoNode) (id : String) : Option WhamoNode :=
  nodes.find? (fun n => n.id = id)

/-- Tooltip entry for a numeric attribute that is present
(`x !== undefined ? "Label: " + x : null`). -/
def numEntry (lbl : String) (v : Option Rat) : Option String :=
  v.map (fun x => lbl ++ toString x)

/-- Tooltip entry for the free-text comment (`c ? "Comment: " + c : null`,
so an empty comment is dropped by JS truthiness). -/
def commentEntry (c : Option String) : Option String :=
  match c with
  | some s => if s = "" then none else some ("Comment: " ++ s)
  | none => none

/-- The opening `<svg>` tag with the embedded style sheet and defs. -/
def svgHeaderOf (svgWidth : Nat) : String :=
  "\n    <svg id=\"system-diagram-svg\" viewBox=\"0 0 " ++ toString svgWidth ++
  " " ++ toString svgHeight ++
  "\" preserveAspectRatio=\"xMidYMid meet\" xmlns=\"http://www.w3.org/2000/svg\" class=\"w-full h-full bg-white\">\n" ++
  "      <style>\n" ++
  "        .diagram-edge, .node \x7b cursor: pointer; \x7d\n" ++
  "        .diagram-edge:hover path \x7b stroke-width: 5; stroke: #2980b9; \x7d\n" ++
  "        .node:hover rect, .node:hover circle, .node:hover path \x7b stroke-width: 4; stroke: #2c3e50; \x7d\n" ++
  "      </style>\n" ++
  "      <defs>\n" ++
  "        <marker id=\"arrowhead\" markerWidth=\"10\" markerHeight=\"10\" refX=\"9\" refY=\"3\" orient=\"auto\">\n" ++
  "          <polygon points=\"0 0, 10 3, 0 6\" fill=\"#3498db\" />\n" ++
  "        </marker>\n" ++
  "        <filter id=\"shadow\" x=\"-20%\" y=\"-20%\" width=\"140%\" height=\"140%\">\n" ++
  "          <feGaussianBlur in=\"SourceAlpha\" stdDeviation=\"2\" />\n" ++
  "          <feOffset dx=\"1\" dy=\"1\" result=\"offsetblur\" />\n" ++
  "          <feComponentTransfer>\n" ++
  "            <feFuncA type=\"linear\" slope=\"0.3\" />\n" ++
  "          </feComponentTransfer>\n" ++
  "          <feMerge>\n" ++
  "            <feMergeNode />\n" ++
  "            <feMergeNode in=\"SourceGraphic\" />\n" ++
  "          </feMerge>\n" ++
  "        </filter>\n" ++
  "      </defs>\n  "

/-- The tooltip string of an edge (`[...].filter(Boolean).join(' | ')`). -/
def edgeTooltip (edge : WhamoEdge) : String :=
  String.intercalate (" | ") (List.filterMap id
    [some ("ID: " ++ edge.id),
     some ("Type: " ++ (match edge.data with
       | some dt => if dt.type = "" then "N/A" else dt.type
       | none => "N/A")),
     numEntry ("Length: ") (edge.data.bind (fun dt => dt.length)),
     numEntry ("Diameter: ") (edge.data.bind (fun dt => dt.diameter)),
     numEntry ("Celerity: ") (edge.data.bind (fun dt => dt.celerity)),
     numEntry ("Friction: ") (edge.data.bind (fun dt => dt.friction)),
     commentEntry (edge.data.bind (fun dt => dt.comment))])

/-- The markup contributed by a single edge in the `edges.forEach` drawing
pass: two early returns skip edges whose source or target resolves to no
node, or has no computed position, contributing the empty string. -/
def edgeSvg (nodes : List WhamoNode) (posMap : List (String × XYPosition))
    (showLabels : Bool) (edge : WhamoEdge) : String :=
  match findNode nodes edge.source, findNode nodes edge.target with
  | some _, some _ =>
      match recordGet posMap edge.source, recordGet posMap edge.target with
      | some p1, some p2 =>
          let x1 := p1.x
          let y1 := p1.y
          let x2 := p2.x
          let y2 := p2.y
          let isDummy : Bool := match edge.data with
            | some dt => dt.type = "dummy"
            | none => false
          let className := if isDummy then
              "stroke=\"#95a5a6\" stroke-width=\"2\" stroke-dasharray=\"5,5\""
            else "stroke=\"#3498db\" stroke-width=\"3\""
          let marker := if isDummy then "" else "marker-end=\"url(#arrowhead)\""
          let tooltipText := edgeTooltip edge
          let dy := y2 - y1
          let mx := (x1 + x2) / 2
          let my := (y1 + y2) / 2
          let path := "M " ++ toString x1 ++ " " ++ toString y1 ++ " Q " ++
            toString mx ++ " " ++ toString (my - dy * (0.1 : Rat)) ++ " " ++
            toString x2 ++ " " ++ toString y2
          let main := "\n      <g class=\"diagram-edge\">\n        <title>" ++
            tooltipText ++ "</title>\n        <path d=\"" ++ path ++ "\" " ++
            className ++ " " ++ marker ++ " fill=\"none\" />\n" ++
            "        <path d=\"" ++ path ++
            "\" stroke=\"transparent\" stroke-width=\"20\" fill=\"none\" />\n      </g>\n    " ++ ""
          -- `const label = edgeData.label || edgeData.pipeId || ''`:
          -- `pipeId` is not a declared EdgeData field (always undefined).
          let label := match edge.data with
            | some dt => dt.label
            | none => ""
          let labelPart := if showLabels then
              (if label = "" then "" else
                let midX := (x1 + x2) / 2
                let midY := (y1 + y2) / 2 - 15
                let boxWidth : Rat := (label.length : Rat) * 8 + 12
                "\n          <g>\n            <rect x=\"" ++
                toString (midX - boxWidth / 2) ++ "\" y=\"" ++
                toString (midY - 12) ++ "\" width=\"" ++ toString boxWidth ++
                "\" height=\"24\" fill=\"white\" fill-opacity=\"0.9\" rx=\"4\" stroke=\"#bdc3c7\" stroke-width=\"1\" />\n" ++
                "            <text x=\"" ++ toString midX ++ "\" y=\"" ++
                toString (midY + 4) ++
                "\" font-size=\"10\" fill=\"#2c3e50\" font-weight=\"bold\" text-anchor=\"middle\">" ++
                label ++ "</text>\n          </g>\n        ")
            else ""
          main ++ labelPart
      | _, _ => ""
  | _, _ => ""

/-- The markup contributed by one node in the `diagramNodes.forEach` drawing
pass (a node without a computed position is skipped, though every node id is
in fact assigned a position). -/
def nodeSvg (posMap : List (String × XYPosition)) (showLabels : Bool)
    (node : WhamoNode) : String :=
  match recordGet posMap node.id with
  | none => ""
  | some pos =>
      let x := pos.x
      let y := pos.y
      let label := node.data.label
      let nodeNum := match node.data.nodeNumber with
        | some k => if k = 0 then node.id else toString k
        | none => node.id
      let tooltipText := String.intercalate (" | ") (List.filterMap id
        [some ("ID: " ++ node.id),
         some ("Type: " ++ node.type),
         some ("Label: " ++ label),
         some ("Node #: " ++ nodeNum),
         numEntry ("Elevation: ") node.data.elevation,
         numEntry ("Top Elev: ") node.data.topElevation,
         numEntry ("Bottom Elev: ") node.data.bottomElevation,
         numEntry ("Diameter: ") node.data.diameter,
         numEntry ("Celerity: ") node.data.celerity,
         numEntry ("Friction: ") node.data.friction,
         numEntry ("Schedule: ") node.data.scheduleNumber,
         commentEntry node.data.comment])
      let nodeLabel := if showLabels then "Node " ++ nodeNum else ""
      let labelTag (yOff : Rat) (extra : String) : String :=
        if nodeLabel = "" then "" else
          "<text x=\"" ++ toString x ++ "\" y=\"" ++ toString (y + yOff) ++
          "\" text-anchor=\"middle\" fill=\"#2c3e50\" font-size=\"10\"" ++
          extra ++ ">" ++ nodeLabel ++ "</text>"
      if node.type = "reservoir" then
        "\n        <g class=\"node\" filter=\"url(#shadow)\">\n          <title>" ++
        tooltipText ++ "</title>\n          <rect x=\"" ++ toString (x - 25) ++
        "\" y=\"" ++ toString (y - 20) ++
        "\" width=\"50\" height=\"40\" fill=\"#3498db\" stroke=\"#2980b9\" stroke-width=\"2\" rx=\"4\" />\n" ++
        "          <text x=\"" ++ toString x ++ "\" y=\"" ++ toString (y + 5) ++
        "\" text-anchor=\"middle\" fill=\"white\" font-size=\"12\" font-weight=\"bold\">" ++
        (if label = "" then "HW" else label) ++ "</text>\n          " ++
        labelTag (-30) (" font-weight=\"bold\"") ++ "\n        </g>\n      "
      else if node.type = "surgeTank" then
        "\n        <g class=\"node\" filter=\"url(#shadow)\">\n          <title>" ++
        tooltipText ++ "</title>\n          <rect x=\"" ++ toString (x - 20) ++
        "\" y=\"" ++ toString (y - 30) ++
        "\" width=\"40\" height=\"60\" fill=\"#f39c12\" stroke=\"#e67e22\" stroke-width=\"2\" rx=\"4\" />\n" ++
        "          <text x=\"" ++ toString x ++ "\" y=\"" ++ toString (y + 5) ++
        "\" text-anchor=\"middle\" fill=\"white\" font-size=\"11\" font-weight=\"bold\">ST</text>\n          " ++
        labelTag (-40) (" font-weight=\"bold\"") ++ "\n        </g>\n      "
      else if node.type = "flowBoundary" then
        "\n        <g class=\"node\" filter=\"url(#shadow)\">\n          <title>" ++
        tooltipText ++ "</title>\n          <path d=\"M " ++ toString (x - 25) ++
        " " ++ toString (y - 15) ++ " L " ++ toString (x + 25) ++ " " ++
        toString y ++ " L " ++ toString (x - 25) ++ " " ++ toString (y + 15) ++
        " Z\" fill=\"#2ecc71\" stroke=\"#27ae60\" stroke-width=\"2\" />\n" ++
        "          <text x=\"" ++ toString (x - 5) ++ "\" y=\"" ++
        toString (y + 4) ++
        "\" text-anchor=\"middle\" fill=\"white\" font-size=\"10\" font-weight=\"bold\">" ++
        (if label = "" then "FB" else label) ++ "</text>\n          " ++
        labelTag 30 (" font-weight=\"bold\"") ++ "\n        </g>\n      "
      else if node.type = "junction" then
        "\n        <g class=\"node\" filter=\"url(#shadow)\">\n          <title>" ++
        tooltipText ++ "</title>\n          <circle cx=\"" ++ toString x ++
        "\" cy=\"" ++ toString y ++
        "\" r=\"8\" fill=\"#e74c3c\" stroke=\"#c0392b\" stroke-width=\"2\" />\n          " ++
        labelTag (-15) (" font-weight=\"bold\"") ++ "\n        </g>\n      "
      else
        "\n        <g class=\"node\">\n          <title>" ++ tooltipText ++
        "</title>\n          <circle cx=\"" ++ toString x ++ "\" cy=\"" ++
        toString y ++
        "\" r=\"6\" fill=\"#95a5a6\" stroke=\"#7f8c8d\" stroke-width=\"2\" />\n          " ++
        labelTag (-15) ("") ++ "\n        </g>\n      "

/-- The `edges.forEach` drawing pass accumulated into `svgContent`. -/
def drawEdges (nodes : List WhamoNode) (posMap : List (String × XYPosition))
    (showLabels : Bool) : List WhamoEdge → String
  | [] => ""
  | e :: rest =>
      edgeSvg nodes posMap showLabels e ++ drawEdges nodes posMap showLabels rest

/-- The `diagramNodes.forEach` drawing pass. -/
def drawNodes (posMap : List (String × XYPosition)) (showLabels : Bool) :
    List WhamoNode → String
  | [] => ""
  | n :: rest => nodeSvg posMap showLabels n ++ drawNodes posMap showLabels rest

/-- `generateSystemDiagramSVG(nodes, edges, options)`: header, edge pass,
node pass, closing tag. The source takes a defensive copy `[...nodes]`; the
embedding is pure, so the copy is the list itself. -/
def generateSystemDiagramSVG (nodes : List WhamoNode) (edges : List WhamoEdge)
    (options : DiagramOptions) : String :=
  svgHeaderOf (svgWidthOf nodes edges) ++
  drawEdges nodes (posMapOf nodes edges) options.showLabels edges ++
  drawNodes (posMapOf nodes edges) options.showLabels nodes ++ "</svg>"

/-- An edge both of whose endpoints resolve to a node and have a computed
position; exactly the edges the drawing pass renders. -/
def renderableEdge (nodes : List WhamoNode)
    (posMap : List (String × XYPosition)) (e : WhamoEdge) : Bool :=
  (findNode nodes e.source).isSome && (findNode nodes e.target).isSome &&
  (recordGet posMap e.source).isSome && (recordGet posMap e.target).isSome

theorem edgeSvg_of_not_renderable (nodes : List WhamoNode)
    (posMap : List (String × XYPosition)) (showLabels : Bool) (e : WhamoEdge)
    (h : renderableEdge nodes posMap e = false) :
    edgeSvg nodes posMap showLabels e = "" := by
  unfold renderableEdge at h
  unfold edgeSvg
  cases hfs : findNode nodes e.source with
  | none => rfl
  | some ns =>
      cases hft : findNode nodes e.target with
      | none => rfl
      | some nt =>
          cases hp1 : recordGet posMap e.source with
          | none => rfl
          | some p1 =>
              cases hp2 : recordGet posMap e.target with
              | none => rfl
              | some p2 =>
                  rw [hfs, hft, hp1, hp2] at h
                  simp at h

theorem drawEdges_filter_renderable (nodes : List WhamoNode)
    (posMap : List (String × XYPosition)) (showLabels : Bool) :
    ∀ es : List WhamoEdge,
      drawEdges nodes posMap showLabels es =
        drawEdges nodes posMap showLabels
          (es.filter (renderableEdge nodes posMap)) := by
  intro es
  induction es with
  | nil => rfl
  | cons e rest ih =>
      cases hr : renderableEdge nodes posMap e with
      | true =>
          simp only [drawEdges, List.filter_cons, hr, if_pos]
          rw [ih]
      | false =>
          simp only [drawEdges, List.filter_cons, hr]
          rw [edgeSvg_of_not_renderable nodes posMap showLabels e hr, ih]
          simp

/-- C5: the renderer is a total function into markup strings (the embedding
itself is total, mirroring that no operation in the source can throw), and
any edge whose source or target resolves to no node, or to no computed
position, contributes nothing: its per-edge markup is empty, and the output
equals the output of a drawing pass over only the renderable edges. -/
theorem dangling_edges_skipped (nodes : List WhamoNode)
    (edges : List WhamoEdge) (options : DiagramOptions) :
    (∀ e : WhamoEdge,
        renderableEdge nodes (posMapOf nodes edges) e = false →
        edgeSvg nodes (posMapOf nodes edges) options.showLabels e = "") ∧
    generateSystemDiagramSVG nodes edges options =
      svgHeaderOf (svgWidthOf nodes edges) ++
      drawEdges nodes (posMapOf nodes edges) options.showLabels
        (edges.filter (renderableEdge nodes (posMapOf nodes edges))) ++
      drawNodes (posMapOf nodes edges) options.showLabels nodes ++ "</svg>" := by
  constructor
  · intro e he
    exact edgeSvg_of_not_renderable _ _ _ e he
  · unfold generateSystemDiagramSVG
    rw [← drawEdges_filter_renderable]

/-- Witness for `dangling_edges_skipped`, reproducing spec Example 4: an
edge whose target id `"ghost"` exists among no nodes is omitted from the
rendered output without an error. -/
theorem dangling_edges_skipped_witness :
    renderableEdge [mkNode "r" "reservoir"]
      (posMapOf [mkNode "r" "reservoir"] [mkEdge "1" "r" "ghost"])
      (mkEdge "1" "r" "ghost") = false ∧
    edgeSvg [mkNode "r" "reservoir"]
      (posMapOf [mkNode "r" "reservoir"] [mkEdge "1" "r" "ghost"]) true
      (mkEdge "1" "r" "ghost") = "" :=
  ⟨by decide,
    (dangling_edges_skipped [mkNode "r" "reservoir"] [mkEdge "1" "r" "ghost"]
      ⟨true⟩).1 (mkEdge "1" "r" "ghost") (by decide)⟩

/-! ## Topology store (store.ts)

The zustand store is embedded as a state structure with one pure function
per action; the module-level `let idCounter = 1` beside the store becomes
the `idCounter` field. `set`/`get` pairs become explicit state passing. -/

/-- `ComputationalParameters` of store.ts. -/
structure ComputationalParameters where
  dtcomp : Rat
  dtout : Rat
  tmax : Rat
  deriving DecidableEq

/-- `Partial<ComputationalParameters>`. -/
structure CompParamsPatch where
  dtcomp : Option Rat := none
  dtout : Option Rat := none
  tmax : Option Rat := none
  deriving DecidableEq

/-- `OutputRequest` of store.ts. -/
structure OutputRequest where
  id : String
  elementId : String
  elementType : String
  requestType : String
  variableNames : List String
  deriving DecidableEq

/-- `Omit<OutputRequest, 'id'>`, the argument of `addOutputRequest`. -/
structure OutputRequestDraft where
  elementId : String
  elementType : String
  requestType : String
  variableNames : List String
  deriving DecidableEq

/-- The snapshot pushed to `history.past`/`history.future`: exactly
`{ nodes, edges, computationalParams, outputRequests }`. -/
structure HistorySnapshot where
  nodes : List WhamoNode
  edges : List WhamoEdge
  computationalParams : ComputationalParameters
  outputRequests : List OutputRequest
  deriving DecidableEq

/-- The `NetworkState` fields of store.ts (actions excluded); `history` is
split into its `past` and `future` stacks, and the module-level id counter
is carried alongside. -/
structure NetworkState where
  nodes : List WhamoNode
  edges : List WhamoEdge
  selectedElementId : Option String
  selectedElementType : Option String
  computationalParams : ComputationalParameters
  outputRequests : List OutputRequest
  isLocked : Bool
  projectName : String
  past : List HistorySnapshot
  future : List HistorySnapshot
  idCounter : Int
  deriving DecidableEq

/-- The initial store contents of `create(...)` plus `idCounter = 1`. -/
def initialState : NetworkState where
  nodes := []
  edges := []
  selectedElementId := none
  selectedElementType := none
  computationalParams := { dtcomp := 0.01, dtout := 0.1, tmax := 500.0 }
  outputRequests := []
  isLocked := false
  projectName := "Untitled Network"
  past := []
  future := []
  idCounter := 1

/-- `const currentState = { nodes, edges, computationalParams, outputRequests }`. -/
def snapshotOf (s : NetworkState) : HistorySnapshot where
  nodes := s.nodes
  edges := s.edges
  computationalParams := s.computationalParams
  outputRequests := s.outputRequests

/-- `set({ ...snapshot, ... })`: spreading a snapshot overwrites exactly its
four fields. -/
def applySnapshot (snap : HistorySnapshot) (s : NetworkState) : NetworkState :=
  { s with
    nodes := snap.nodes, edges := snap.edges,
    computationalParams := snap.computationalParams,
    outputRequests := snap.outputRequests }

/-- `saveToHistory()`: prepend the current snapshot, truncate to 50, clear
the future stack. -/
def saveToHistory (s : NetworkState) : NetworkState :=
  { s with past := (snapshotOf s :: s.past).take 50, future := [] }

/-- `undo()`: no-op on empty past; otherwise apply the newest past snapshot
and push the pre-undo snapshot onto future. -/
def undo (s : NetworkState) : NetworkState :=
  match s.past with
  | [] => s
  | previous :: newPast =>
      applySnapshot previous
        { s with
          past := newPast, future := snapshotOf s :: s.future }

/-- `redo()`: mirror of `undo` over the future stack. -/
def redo (s : NetworkState) : NetworkState :=
  match s.future with
  | [] => s
  | next :: newFuture =>
      applySnapshot next
        { s with
          past := snapshotOf s :: s.past, future := newFuture }

/-- `const getId = () => `${idCounter++}``. -/
def getId (s : NetworkState) : String × NetworkState :=
  (toString s.idCounter, { s with idCounter := s.idCounter + 1 })

/-- The `Connection` handed to `onConnect`. -/
structure Connection where
  source : String
  target : String
  sourceHandle : Option String := none
  targetHandle : Option String := none
  deriving DecidableEq

/-- Modelled from the spec: `addEdge` comes from the external `@xyflow/react`
library, which is not part of this repository; per the spec the connect
operation "creates a conduit edge", i.e. the built edge joins the edge
array. -/
def addEdge (edge : WhamoEdge) (edges : List WhamoEdge) : List WhamoEdge :=
  edges ++ [edge]

/-- Number of edges whose `data?.type === 'conduit'`. -/
def conduitCount (edges : List WhamoEdge) : Nat :=
  (edges.filter (fun e => match e.data with
    | some dt => dt.type = "conduit"
    | none => false)).length

/-- `onConnect(connection)`. -/
def onConnect (s : NetworkState) (connection : Connection) : NetworkState :=
  let s1 := saveToHistory s
  let idPair := getId s1
  let s2 := idPair.2
  let connectionLabel := "C" ++ toString (conduitCount s2.edges + 1)
  let newEdge : WhamoEdge :=
    { id := idPair.1, source := connection.source,
      target := connection.target,
      sourceHandle := connection.sourceHandle,
      targetHandle := connection.targetHandle,
      type := some "connection",
      style := some { stroke := "#64748b", strokeWidth := 2 },
      markerEnd := some { type := "arrowclosed", color := "#64748b" },
      data := some { label := connectionLabel, type := "conduit",
                     length := some 1000, diameter := some 0.5,
                     celerity := some 1000, friction := some 0.02,
                     numSegments := some 1 } }
  { s2 with edges := addEdge newEdge s2.edges }

/-- JS `parseInt` as used on this app's ids: optional sign followed by the
longest leading run of decimal digits; `none` renders `NaN` (ids here are
decimal strings, so radix prefixes and leading whitespace do not arise). -/
def parseIntJS (s : String) : Option Int :=
  let signed : Int × List Char := match s.data with
    | '-' :: cs => (-1, cs)
    | '+' :: cs => (1, cs)
    | cs => (1, cs)
  let ds := signed.2.takeWhile (fun c => c.isDigit)
  if ds = [] then none
  else some (signed.1 * (ds.foldl (fun acc c => acc * 10 + ((c.toNat : Int) - 48)) 0))

/-- `addNode(type, position)` with its `switch` of per-type defaults
(`let nodeNumber = parseInt(id)`; the id is a decimal counter print, so the
`NaN` branch never fires). -/
def addNode (s : NetworkState) (ty : String) (position : XYPosition) :
    NetworkState :=
  let s1 := saveToHistory s
  let idPair := getId s1
  let id := idPair.1
  let s2 := idPair.2
  let nodeNumber := parseIntJS id
  let nodeNumberStr := match nodeNumber with
    | some k => toString k
    | none => "NaN"
  let initialData : NodeData :=
    if ty = "reservoir" then
      { label := "HW", type := ty, nodeNumber := nodeNumber,
                elevation := some 100 }
    else if ty = "node" then
      { label := "Node " ++ nodeNumberStr, type := ty,
                nodeNumber := nodeNumber, elevation := some 50 }
    else if ty = "junction" then
      { label := "Node " ++ nodeNumberStr, type := ty,
                nodeNumber := nodeNumber, elevation := some 50 }
    else if ty = "surgeTank" then
      { label := "ST", type := ty, nodeNumber := nodeNumber,
                topElevation := some 120, bottomElevation := some 80,
                diameter := some 5, celerity := some 1000,
                friction := some 0.01 }
    else if ty = "flowBoundary" then
      { label := "FB" ++ id, type := ty, nodeNumber := nodeNumber,
                scheduleNumber := some 1 }
    else
      { label := "", type := ty }
  let newNode : WhamoNode :=
    { id := id, type := ty, position := position, data := initialData }
  { s2 with nodes := s2.nodes ++ [newNode] }

/-- `Partial<NodeData>`. -/
structure NodeDataPatch where
  label : Option String := none
  type : Option String := none
  elevation : Option Rat := none
  nodeNumber : Option Int := none
  comment : Option String := none
  topElevation : Option Rat := none
  bottomElevation : Option Rat := none
  diameter : Option Rat := none
  celerity : Option Rat := none
  friction : Option Rat := none
  scheduleNumber : Option Rat := none
  deriving DecidableEq

/-- `{ ...node.data, ...data }`: fields present in the patch override. -/
def mergeNodeData (old : NodeData) (p : NodeDataPatch) : NodeData where
  label := p.label.getD old.label
  type := p.type.getD old.type
  elevation := p.elevation.or old.elevation
  nodeNumber := p.nodeNumber.or old.nodeNumber
  comment := p.comment.or old.comment
  topElevation := p.topElevation.or old.topElevation
  bottomElevation := p.bottomElevation.or old.bottomElevation
  diameter := p.diameter.or old.diameter
  celerity := p.celerity.or old.celerity
  friction := p.friction.or old.friction
  scheduleNumber := p.scheduleNumber.or old.scheduleNumber

/-- `updateNodeData(id, data)`. -/
def updateNodeData (s : NetworkState) (id : String) (d : NodeDataPatch) :
    NetworkState :=
  let s1 := saveToHistory s
  { s1 with nodes := s1.nodes.map (fun node =>
      if node.id = id then { node with data := mergeNodeData node.data d }
      else node) }

/-- `Partial<EdgeData>`. -/
structure EdgeDataPatch where
  label : Option String := none
  type : Option String := none
  length : Option Rat := none
  diameter : Option Rat := none
  celerity : Option Rat := none
  friction : Option Rat := none
  numSegments : Option Rat := none
  cplus : Option Rat := none
  cminus : Option Rat := none
  comment : Option String := none
  variableFlag : Option Bool := none
  distance : Option Rat := none
  area : Option Rat := none
  d : Option Rat := none
  a : Option Rat := none
  deriving DecidableEq

/-- JS `a || b` on a possibly-undefined string: the empty string is falsy. -/
def jsOrStr (a : Option String) (b : String) : String :=
  match a with
  | some s => if s = "" then b else s
  | none => b

/-- `updateEdgeData(id, data)`: shallow merge; a (truthy) changed `type`
regenerates the label from the count of same-new-type edges excluding self,
and `newType` reassigns stroke style and arrow marker. -/
def updateEdgeData (s : NetworkState) (id : String) (p : EdgeDataPatch) :
    NetworkState :=
  let s1 := saveToHistory s
  { s1 with edges := s1.edges.map (fun edge =>
      if edge.id = id then
        let oldType : Option String := edge.data.map (fun dt => dt.type)
        let newType : Option String := match p.type with
          | some t => if t = "" then oldType else some t
          | none => oldType
        let label0 := jsOrStr p.label (jsOrStr (edge.data.map (fun dt => dt.label)) "")
        let typeChanged : Bool := match p.type with
          | some t => if t = "" then false else if some t = oldType then false else true
          | none => false
        let label := if typeChanged then
            let sameTypeEdges := s1.edges.filter (fun e =>
              (e.data.map (fun dt => dt.type)) = p.type ∧ e.id ≠ id)
            (if p.type = some "conduit" then "C" else "D") ++
              toString (sameTypeEdges.length + 1)
          else label0
        let newTypeField : String := match p.type with
          | some t => t
          | none => match edge.data with
            | some dt => dt.type
            | none => ""
        let newData : EdgeData :=
          { label := label,
            type := newTypeField,
            length := p.length.or (edge.data.bind (fun dt => dt.length)),
            diameter := p.diameter.or (edge.data.bind (fun dt => dt.diameter)),
            celerity := p.celerity.or (edge.data.bind (fun dt => dt.celerity)),
            friction := p.friction.or (edge.data.bind (fun dt => dt.friction)),
            numSegments := p.numSegments.or (edge.data.bind (fun dt => dt.numSegments)),
            cplus := p.cplus.or (edge.data.bind (fun dt => dt.cplus)),
            cminus := p.cminus.or (edge.data.bind (fun dt => dt.cminus)),
            comment := p.comment.or (edge.data.bind (fun dt => dt.comment)),
            variableFlag := p.variableFlag.or (edge.data.bind (fun dt => dt.variableFlag)),
            distance := p.distance.or (edge.data.bind (fun dt => dt.distance)),
            area := p.area.or (edge.data.bind (fun dt => dt.area)),
            d := p.d.or (edge.data.bind (fun dt => dt.d)),
            a := p.a.or (edge.data.bind (fun dt => dt.a)),
            variableData := edge.data.bind (fun dt => dt.variableData) }
        let style := if newType = some "conduit" then
            some { stroke := "#3b82f6", strokeWidth := 2 }
          else if newType = some "dummy" then
            some { stroke := "#94a3b8", strokeWidth := 2,
                   strokeDasharray := some "5,5" }
          else edge.style
        let markerEnd := if newType = some "conduit" then
            some { type := "arrowclosed", color := "#3b82f6" }
          else if newType = some "dummy" then
            some { type := "arrowclosed", color := "#94a3b8" }
          else edge.markerEnd
        { edge with
          data := some newData, style := style, markerEnd := markerEnd }
      else edge) }

/-- `deleteElement(id, type)`: a node deletion cascades to incident edges;
everything else (the `else` branch) deletes by edge id; the selection is
cleared on an id match. -/
def deleteElement (s : NetworkState) (id : String) (ty : String) :
    NetworkState :=
  let s1 := saveToHistory s
  if ty = "node" then
    { s1 with
      nodes := s1.nodes.filter (fun n => n.id ≠ id),
      edges := s1.edges.filter (fun e => e.source ≠ id ∧ e.target ≠ id),
      selectedElementId :=
        if s1.selectedElementId = some id then none else s1.selectedElementId,
      selectedElementType :=
        if s1.selectedElementId = some id then none else s1.selectedElementType }
  else
    { s1 with
      edges := s1.edges.filter (fun e => e.id ≠ id),
      selectedElementId :=
        if s1.selectedElementId = some id then none else s1.selectedElementId,
      selectedElementType :=
        if s1.selectedElementId = some id then none else s1.selectedElementType }

/-- `selectElement(id, type)`: untracked. -/
def selectElement (s : NetworkState) (id : Option String)
    (ty : Option String) : NetworkState :=
  { s with selectedElementId := id, selectedElementType := ty }

/-- `Math.max(...nodes.map(n => parseInt(n.id) || 0), ...edges.map(...), 0)`. -/
def maxNumericId (nodes : List WhamoNode) (edges : List WhamoEdge) : Int :=
  ((nodes.map (fun n => (parseIntJS n.id).getD 0)) ++
    (edges.map (fun e => (parseIntJS e.id).getD 0))).foldl max 0

/-- Flattening of a loaded edge's nested `variableData` bag onto its
top-level fields, with the `variable` flag forced true. -/
def flattenVariableData (edge : WhamoEdge) : WhamoEdge :=
  match edge.data with
  | some dt =>
      match dt.variableData with
      | some bag =>
          let flat : EdgeData :=
            { dt with
              distance := bag.distance.or dt.distance,
              area := bag.area.or dt.area,
              d := bag.d.or dt.d,
              a := bag.a.or dt.a,
              variableData := none,
              variableFlag := some true }
          { edge with data := some flat }
      | none => edge
  | none => edge

/-- `loadNetwork(nodes, edges, params?, requests?, projectName?)`: full
replacement, id-counter recomputation, `variableData` flattening; does not
push history. -/
def loadNetwork (s : NetworkState) (nodes : List WhamoNode)
    (edges : List WhamoEdge) (params : Option ComputationalParameters)
    (requests : Option (List OutputRequest)) (projectName : Option String) :
    NetworkState :=
  { s with
    nodes := nodes,
    edges := edges.map flattenVariableData,
    computationalParams := params.getD s.computationalParams,
    outputRequests := requests.getD [],
    projectName := jsOrStr projectName s.projectName,
    selectedElementId := none,
    selectedElementType := none,
    idCounter := maxNumericId nodes edges + 1 }

/-- `clearNetwork()`: pushes history, then resets the listed fields and the
id counter (computationalParams and isLocked are not in the `set`). -/
def clearNetwork (s : NetworkState) : NetworkState :=
  let s1 := saveToHistory s
  { s1 with
    nodes := [], edges := [], selectedElementId := none,
    selectedElementType := none, outputRequests := [],
    projectName := "Untitled Network", idCounter := 1 }

/-- `updateComputationalParams(params)`. -/
def updateComputationalParams (s : NetworkState) (params : CompParamsPatch) :
    NetworkState :=
  let s1 := saveToHistory s
  let merged : ComputationalParameters :=
    { dtcomp := params.dtcomp.getD s1.computationalParams.dtcomp,
      dtout := params.dtout.getD s1.computationalParams.dtout,
      tmax := params.tmax.getD s1.computationalParams.tmax }
  { s1 with computationalParams := merged }

/-- `addOutputRequest(request)`: the wall-clock reading `Date.now()` used
for the generated id is passed in as `now`. -/
def addOutputRequest (s : NetworkState) (request : OutputRequestDraft)
    (now : Nat) : NetworkState :=
  let s1 := saveToHistory s
  let newRequest : OutputRequest :=
    { id := "req-" ++ toString now, elementId := request.elementId,
      elementType := request.elementType,
      requestType := request.requestType,
      variableNames := request.variableNames }
  { s1 with outputRequests := s1.outputRequests ++ [newRequest] }

/-- `removeOutputRequest(id)`. -/
def removeOutputRequest (s : NetworkState) (id : String) : NetworkState :=
  let s1 := saveToHistory s
  { s1 with outputRequests := s1.outputRequests.filter (fun r => r.id ≠ id) }

/-- `toggleLock()`: untracked. -/
def toggleLock (s : NetworkState) : NetworkState :=
  { s with isLocked := !s.isLocked }

/-- `setProjectName(name)`: untracked. -/
def setProjectName (s : NetworkState) (name : String) : NetworkState :=
  { s with projectName := name }

/-! ### History-tracked mutations (each begins with `get().saveToHistory()`) -/

/-- The nine history-tracked mutations of the store. -/
inductive Mutation where
  | addNode (ty : String) (position : XYPosition)
  | connect (connection : Connection)
  | updateNodeData (id : String) (d : NodeDataPatch)
  | updateEdgeData (id : String) (p : EdgeDataPatch)
  | deleteElement (id : String) (ty : String)
  | clearNetwork
  | updateComputationalParams (p : CompParamsPatch)
  | addOutputRequest (r : OutputRequestDraft) (now : Nat)
  | removeOutputRequest (id : String)
  deriving DecidableEq

/-- Dispatch a tracked mutation to its store action. -/
def applyMutation (s : NetworkState) : Mutation → NetworkState
  | .addNode ty pos => addNode s ty pos
  | .connect c => onConnect s c
  | .updateNodeData id d => updateNodeData s id d
  | .updateEdgeData id p => updateEdgeData s id p
  | .deleteElement id ty => deleteElement s id ty
  | .clearNetwork => clearNetwork s
  | .updateComputationalParams p => updateComputationalParams s p
  | .addOutputRequest r now => addOutputRequest s r now
  | .removeOutputRequest id => removeOutputRequest s id

/-- A sequence of tracked mutations applied in order. -/
def applyMutations (s : NetworkState) : List Mutation → NetworkState
  | [] => s
  | m :: ms => applyMutations (applyMutation s m) ms

/-- `undo()` iterated. -/
def undoN : Nat → NetworkState → NetworkState
  | 0, s => s
  | n + 1, s => undoN n (undo s)

/-- `redo()` iterated. -/
def redoN : Nat → NetworkState → NetworkState
  | 0, s => s
  | n + 1, s => redoN n (redo s)

/-- The snapshots a mutation sequence pushes, newest first (the snapshot of
the state just before each mutation). -/
def snapTrace (s : NetworkState) : List Mutation → List HistorySnapshot
  | [] => []
  | m :: ms => snapTrace (applyMutation s m) ms ++ [snapshotOf s]

/-- Every tracked mutation pushes the pre-mutation snapshot (truncating to
50) and clears the future stack. -/
theorem applyMutation_history (s : NetworkState) (m : Mutation) :
    (applyMutation s m).past = (snapshotOf s :: s.past).take 50 ∧
    (applyMutation s m).future = [] := by
  cases m with
  | deleteElement id ty =>
      refine ⟨?_, ?_⟩ <;>
        · simp only [applyMutation, deleteElement]
          split <;> rfl
  | addNode ty pos => exact ⟨rfl, rfl⟩
  | connect c => exact ⟨rfl, rfl⟩
  | updateNodeData id d => exact ⟨rfl, rfl⟩
  | updateEdgeData id p => exact ⟨rfl, rfl⟩
  | clearNetwork => exact ⟨rfl, rfl⟩
  | updateComputationalParams p => exact ⟨rfl, rfl⟩
  | addOutputRequest r now => exact ⟨rfl, rfl⟩
  | removeOutputRequest id => exact ⟨rfl, rfl⟩

theorem snapTrace_length : ∀ (ms : List Mutation) (s : NetworkState),
    (snapTrace s ms).length = ms.length := by
  intro ms
  induction ms with
  | nil => intro s; rfl
  | cons m ms ih =>
      intro s
      simp [snapTrace, ih (applyMutation s m)]

theorem snapTrace_ne_nil (s : NetworkState) (m : Mutation) (ms : List Mutation) :
    snapTrace s (m :: ms) ≠ [] := by
  simp [snapTrace]

theorem getLastD_append_singleton {α : Type} :
    ∀ (l : List α) (x d : α), (l ++ [x]).getLastD d = x := by
  intro l
  induction l with
  | nil => intro x d; rfl
  | cons y ys ih =>
      intro x d
      rw [List.cons_append, List.getLastD_cons]
      exact ih x y

theorem snapTrace_getLastD (s : NetworkState) (m : Mutation)
    (ms : List Mutation) (d : HistorySnapshot) :
    (snapTrace s (m :: ms)).getLastD d = snapshotOf s :=
  getLastD_append_singleton _ _ _

theorem take_append_take {α : Type} (A C : List α) (n : Nat) :
    (A ++ C.take n).take n = (A ++ C).take n := by
  rw [List.take_append_eq_append_take, List.take_append_eq_append_take,
    List.take_take]
  congr 2
  omega

/-- After a nonempty mutation run, the past stack is the pushed trace atop
the old past, truncated to 50, and the future stack is empty. -/
theorem applyMutations_past : ∀ (ms : List Mutation), ms ≠ [] →
    ∀ s : NetworkState,
      (applyMutations s ms).past = (snapTrace s ms ++ s.past).take 50 ∧
      (applyMutations s ms).future = [] := by
  intro ms
  induction ms with
  | nil => intro h; exact absurd rfl h
  | cons m ms ih =>
      intro _ s
      by_cases h : ms = []
      · subst h
        have hh := applyMutation_history s m
        refine ⟨?_, hh.2⟩
        show (applyMutation s m).past = _
        rw [hh.1]
        simp [snapTrace]
      · obtain ⟨h1, h2⟩ := ih h (applyMutation s m)
        refine ⟨?_, h2⟩
        show (applyMutations (applyMutation s m) ms).past = _
        rw [h1, (applyMutation_history s m).1,
          take_append_take (snapTrace (applyMutation s m) ms)
            (snapshotOf s :: s.past) 50]
        simp [snapTrace, List.append_assoc]

/-- The future entries produced by undoing through a past prefix
`[p0, p1, ..., p(n-1)]` starting from snapshot `snap`:
`[p(n-2), ..., p0, snap]`. -/
def undoFutureList : List HistorySnapshot → HistorySnapshot →
    List HistorySnapshot
  | [], _ => []
  | p :: ps, snap => undoFutureList ps p ++ [snap]

theorem undoFutureList_length : ∀ (ps : List HistorySnapshot)
    (snap : HistorySnapshot), (undoFutureList ps snap).length = ps.length := by
  intro ps
  induction ps with
  | nil => intro snap; rfl
  | cons p ps ih => intro snap; simp [undoFutureList, ih p]

theorem undoFutureList_getLastD (ps : List HistorySnapshot)
    (hne : ps ≠ []) (snap d : HistorySnapshot) :
    (undoFutureList ps snap).getLastD d = snap := by
  cases ps with
  | nil => exact absurd rfl hne
  | cons p ps => exact getLastD_append_singleton _ _ _

theorem snapshotOf_applySnapshot (snap : HistorySnapshot) (s : NetworkState) :
    snapshotOf (applySnapshot snap s) = snap := rfl

/-- Undoing exactly through a prefix of the past stack lands on the last
(oldest) prefix snapshot and stacks the traversed snapshots onto future. -/
theorem undoN_spec : ∀ (pre : List HistorySnapshot) (s : NetworkState)
    (rest : List HistorySnapshot), s.past = pre ++ rest →
    snapshotOf (undoN pre.length s) = pre.getLastD (snapshotOf s) ∧
    (undoN pre.length s).future = undoFutureList pre (snapshotOf s) ++ s.future ∧
    (undoN pre.length s).past = rest := by
  intro pre
  induction pre with
  | nil =>
      intro s rest h
      exact ⟨rfl, rfl, h⟩
  | cons p ps ih =>
      intro s rest h
      have hundo : undo s = applySnapshot p
          { s with
            past := ps ++ rest, future := snapshotOf s :: s.future } := by
        unfold undo
        rw [h]
        rfl
      have h1 : (undo s).past = ps ++ rest := by rw [hundo]; rfl
      have h2 : snapshotOf (undo s) = p := by
        rw [hundo]
        exact snapshotOf_applySnapshot p _
      have h3 : (undo s).future = snapshotOf s :: s.future := by
        rw [hundo]; rfl
      obtain ⟨ih1, ih2, ih3⟩ := ih (undo s) rest h1
      have hstep : undoN (p :: ps).length s = undoN ps.length (undo s) := rfl
      refine ⟨?_, ?_, ?_⟩
      · rw [hstep, ih1, h2, List.getLastD_cons]
      · rw [hstep, ih2, h2, h3]
        show undoFutureList ps p ++ (snapshotOf s :: s.future) =
          (undoFutureList ps p ++ [snapshotOf s]) ++ s.future
        rw [List.append_assoc]
        rfl
      · rw [hstep]
        exact ih3

/-- Redoing exactly through a prefix of the future stack lands on the last
prefix snapshot. -/
theorem redoN_spec : ∀ (pre : List HistorySnapshot) (s : NetworkState)
    (rest : List HistorySnapshot), s.future = pre ++ rest →
    snapshotOf (redoN pre.length s) = pre.getLastD (snapshotOf s) := by
  intro pre
  induction pre with
  | nil => intro s rest _; rfl
  | cons p ps ih =>
      intro s rest h
      have hredo : redo s = applySnapshot p
          { s with
            past := snapshotOf s :: s.past, future := ps ++ rest } := by
        unfold redo
        rw [h]
        rfl
      have h1 : (redo s).future = ps ++ rest := by rw [hredo]; rfl
      have h2 : snapshotOf (redo s) = p := by
        rw [hredo]
        exact snapshotOf_applySnapshot p _
      have hstep : redoN (p :: ps).length s = redoN ps.length (redo s) := rfl
      rw [hstep, ih (redo s) rest h1, h2, List.getLastD_cons]

/-- C2: from any starting store state, any sequence of at most 50
history-tracked mutations is inverted by as many `undo()` calls — the
tracked fields `{nodes, edges, computationalParams, outputRequests}` return
exactly to their pre-mutation values — and as many `redo()` calls then
restore their final post-mutation values. -/
theorem undo_redo_roundtrip (s : NetworkState) (ms : List Mutation)
    (hlen : ms.length ≤ 50) :
    snapshotOf (undoN ms.length (applyMutations s ms)) = snapshotOf s ∧
    snapshotOf (redoN ms.length (undoN ms.length (applyMutations s ms))) =
      snapshotOf (applyMutations s ms) := by
  cases ms with
  | nil => exact ⟨rfl, rfl⟩
  | cons m ms2 =>
      obtain ⟨hpast, hfut⟩ := applyMutations_past (m :: ms2) (by simp) s
      have hlenT : (snapTrace s (m :: ms2)).length = (m :: ms2).length :=
        snapTrace_length (m :: ms2) s
      have htake : ((snapTrace s (m :: ms2)) ++ s.past).take 50 =
          snapTrace s (m :: ms2) ++ s.past.take (50 - (m :: ms2).length) := by
        rw [List.take_append_eq_append_take, hlenT]
        congr 1
        apply List.take_of_length_le
        omega
      have hpast2 : (applyMutations s (m :: ms2)).past =
          snapTrace s (m :: ms2) ++ s.past.take (50 - (m :: ms2).length) := by
        rw [hpast, htake]
      obtain ⟨hu1, hu2, _⟩ :=
        undoN_spec (snapTrace s (m :: ms2)) (applyMutations s (m :: ms2)) _
          hpast2
      rw [hlenT] at hu1 hu2
      refine ⟨?_, ?_⟩
      · rw [hu1, snapTrace_getLastD]
      · have hfutu : (undoN (m :: ms2).length
            (applyMutations s (m :: ms2))).future =
            undoFutureList (snapTrace s (m :: ms2))
              (snapshotOf (applyMutations s (m :: ms2))) ++ [] := by
          rw [hu2, hfut]
        have hl2 : (undoFutureList (snapTrace s (m :: ms2))
            (snapshotOf (applyMutations s (m :: ms2)))).length =
            (m :: ms2).length := by
          rw [undoFutureList_length, hlenT]
        have hr := redoN_spec
          (undoFutureList (snapTrace s (m :: ms2))
            (snapshotOf (applyMutations s (m :: ms2))))
          (undoN (m :: ms2).length (applyMutations s (m :: ms2))) [] hfutu
        rw [hl2] at hr
        rw [hr]
        exact undoFutureList_getLastD _ (snapTrace_ne_nil s m ms2) _ _

/-- Witness for `undo_redo_roundtrip`: one `addNode` on the fresh store,
undone and redone. -/
theorem undo_redo_roundtrip_witness :
    ([Mutation.addNode "junction" ⟨0, 0⟩] : List Mutation).length ≤ 50 ∧
    snapshotOf (undoN 1 (applyMutations initialState
      [Mutation.addNode "junction" ⟨0, 0⟩])) = snapshotOf initialState ∧
    snapshotOf (redoN 1 (undoN 1 (applyMutations initialState
      [Mutation.addNode "junction" ⟨0, 0⟩]))) =
      snapshotOf (applyMutations initialState
        [Mutation.addNode "junction" ⟨0, 0⟩]) :=
  ⟨by decide,
    (undo_redo_roundtrip initialState [Mutation.addNode "junction" ⟨0, 0⟩]
      (by decide)).1,
    (undo_redo_roundtrip initialState [Mutation.addNode "junction" ⟨0, 0⟩]
      (by decide)).2⟩

/-- C3: every tracked mutation leaves at most 50 past entries and an empty
future stack (`saveToHistory` always empties it); a run of 60 tracked
mutations from any state leaves exactly 50 past entries — the newest 50
pushed snapshots, the 10 oldest (and any older history) discarded. -/
theorem history_capped :
    (∀ (s : NetworkState) (m : Mutation),
        (applyMutation s m).past.length ≤ 50 ∧
        (applyMutation s m).future = []) ∧
    (∀ s : NetworkState,
        (saveToHistory s).future = [] ∧ (saveToHistory s).past.length ≤ 50) ∧
    (∀ (s : NetworkState) (ms : List Mutation), ms.length = 60 →
        (applyMutations s ms).past.length = 50 ∧
        (applyMutations s ms).past = (snapTrace s ms).take 50) := by
  refine ⟨?_, ?_, ?_⟩
  · intro s m
    obtain ⟨h1, h2⟩ := applyMutation_history s m
    refine ⟨?_, h2⟩
    rw [h1]
    simp [List.length_take]
  · intro s
    refine ⟨rfl, ?_⟩
    show ((snapshotOf s :: s.past).take 50).length ≤ 50
    simp [List.length_take]
  · intro s ms hms
    have hne : ms ≠ [] := by
      intro h
      rw [h] at hms
      cases hms
    obtain ⟨hpast, _⟩ := applyMutations_past ms hne s
    have hlenT : (snapTrace s ms).length = ms.length := snapTrace_length ms s
    have htk : (snapTrace s ms ++ s.past).take 50 = (snapTrace s ms).take 50 := by
      apply List.take_append_of_le_length
      omega
    refine ⟨?_, by rw [hpast, htk]⟩
    rw [hpast, htk]
    simp only [List.length_take]
    omega

/-- Witness for `history_capped`: 60 clears on the fresh store leave
exactly 50 past entries. -/
theorem history_capped_witness :
    (List.replicate 60 Mutation.clearNetwork).length = 60 ∧
    (applyMutations initialState
      (List.replicate 60 Mutation.clearNetwork)).past.length = 50 :=
  ⟨by decide,
    (history_capped.2.2 initialState (List.replicate 60 Mutation.clearNetwork)
      (by decide)).1⟩

/-- C4 (amended): `clearNetwork()` pushes the current snapshot onto history
(truncated to 50, future emptied), empties nodes/edges/outputRequests,
clears the selection, resets the project name and the id counter — but
`computationalParams` and `isLocked` keep their prior values: they are not
in the reset `set(...)`, so the store is NOT fully reset to its initial
value. -/
theorem clearNetwork_spec (s : NetworkState) :
    clearNetwork s = { s with
      nodes := [], edges := [], selectedElementId := none,
      selectedElementType := none, outputRequests := [],
      projectName := "Untitled Network", idCounter := 1,
      past := (snapshotOf s :: s.past).take 50, future := [] } := rfl

/-- Counterexample to C4 as stated: after altering `dtcomp` to 7,
`clearNetwork()` leaves it at 7 — not the initial 0.01 — so not every other
stored field returns to its initial value. -/
theorem clearNetwork_params_counterexample :
    (clearNetwork { initialState with
      computationalParams :=
        { dtcomp := 7, dtout := 0.1, tmax := 500.0 } }).computationalParams.dtcomp
      = 7 ∧
    initialState.computationalParams.dtcomp = 1 / 100 ∧
    ((7 : Rat) ≠ 1 / 100) := by
  refine ⟨rfl, ?_, by norm_num⟩
  show (0.01 : Rat) = 1 / 100
  norm_num

/-- C6 (amended): `deleteElement(id, 'node')` removes the node and every
edge incident to it (no orphaned edges remain); `deleteElement(id, 'edge')`
removes only that edge and no node; in both cases the selection is cleared
if and only if the SELECTED ID equals the deleted id — the selected
element's type is not compared, so deleting an edge whose id matches a
selected node still clears the selection. -/
theorem deleteElement_spec (s : NetworkState) (id : String) :
    ((deleteElement s id "node").nodes = s.nodes.filter (fun n => n.id ≠ id)) ∧
    ((deleteElement s id "node").edges =
      s.edges.filter (fun e => e.source ≠ id ∧ e.target ≠ id)) ∧
    (∀ n ∈ (deleteElement s id "node").nodes, n.id ≠ id) ∧
    (∀ e ∈ (deleteElement s id "node").edges, e.source ≠ id ∧ e.target ≠ id) ∧
    ((deleteElement s id "edge").nodes = s.nodes) ∧
    ((deleteElement s id "edge").edges = s.edges.filter (fun e => e.id ≠ id)) ∧
    (∀ ty, (deleteElement s id ty).selectedElementId =
      (if s.selectedElementId = some id then none else s.selectedElementId)) ∧
    (∀ ty, (deleteElement s id ty).selectedElementType =
      (if s.selectedElementId = some id then none else s.selectedElementType)) := by
  refine ⟨rfl, rfl, ?_, ?_, rfl, rfl, ?_, ?_⟩
  · intro n hn
    have : n ∈ s.nodes.filter (fun n => n.id ≠ id) := hn
    have := List.of_mem_filter this
    simpa using this
  · intro e he
    have : e ∈ s.edges.filter (fun e => e.source ≠ id ∧ e.target ≠ id) := he
    have := List.of_mem_filter this
    simpa using this
  · intro ty
    simp only [deleteElement]
    split <;> rfl
  · intro ty
    simp only [deleteElement]
    split <;> rfl

/-- Witness for `deleteElement_spec` on a two-node, one-edge store. -/
theorem deleteElement_spec_witness :
    (deleteElement { initialState with
        nodes := [mkNode "1" "junction", mkNode "2" "junction"],
        edges := [mkEdge "9" "1" "2"] } "1" "node").nodes =
      [mkNode "1" "junction", mkNode "2" "junction"].filter
        (fun n => n.id ≠ "1") ∧
    (deleteElement { initialState with
        nodes := [mkNode "1" "junction", mkNode "2" "junction"],
        edges := [mkEdge "9" "1" "2"] } "1" "node").edges =
      [mkEdge "9" "1" "2"].filter (fun e => e.source ≠ "1" ∧ e.target ≠ "1") :=
  ⟨(deleteElement_spec { initialState with
      nodes := [mkNode "1" "junction", mkNode "2" "junction"],
      edges := [mkEdge "9" "1" "2"] } "1").1,
   (deleteElement_spec { initialState with
      nodes := [mkNode "1" "junction", mkNode "2" "junction"],
      edges := [mkEdge "9" "1" "2"] } "1").2.1⟩

/-- Counterexample to C6 as stated: with node `"1"` selected (type 'node')
and NO edges at all, `deleteElement("1", 'edge')` deletes nothing that is
selected — the deleted element does not even exist — yet the selection is
cleared, because only the id is compared. -/
theorem deleteElement_selection_counterexample :
    ({ initialState with
        nodes := [mkNode "1" "junction"], selectedElementId := some "1",
        selectedElementType := some "node" } : NetworkState).edges = [] ∧
    (deleteElement { initialState with
        nodes := [mkNode "1" "junction"], selectedElementId := some "1",
        selectedElementType := some "node" } "1" "edge").selectedElementId
      = none ∧
    (deleteElement { initialState with
        nodes := [mkNode "1" "junction"], selectedElementId := some "1",
        selectedElementType := some "node" } "1" "edge").selectedElementType
      = none := by decide

/-- C7: `onConnect` appends exactly one new edge whose `data` carries
type `conduit`, the fixed physical defaults, and the label `C{n+1}`, where
`n` is the count of conduit-typed edges at the moment of the call
(count-based, not id-based). With two existing conduit edges the label is
therefore `"C3"`. -/
theorem onConnect_label_spec (s : NetworkState) (connection : Connection) :
    ∃ e : WhamoEdge, (onConnect s connection).edges = s.edges ++ [e] ∧
      e.data = some { label := "C" ++ toString (conduitCount s.edges + 1),
                      type := "conduit", length := some 1000,
                      diameter := some 0.5, celerity := some 1000,
                      friction := some 0.02, numSegments := some 1 } :=
  ⟨_, rfl, rfl⟩

theorem foldl_max_le_init : ∀ (l : List Int) (a : Int), a ≤ l.foldl max a := by
  intro l
  induction l with
  | nil => intro a; exact le_refl a
  | cons y ys ih =>
      intro a
      exact le_trans (le_max_left a y) (ih (max a y))

theorem mem_le_foldl_max : ∀ (l : List Int) (a : Int), ∀ x ∈ l,
    x ≤ l.foldl max a := by
  intro l
  induction l with
  | nil => intro a x hx; cases hx
  | cons y ys ih =>
      intro a x hx
      rcases List.mem_cons.mp hx with rfl | hxs
      · exact le_trans (le_max_right a x) (foldl_max_le_init ys (max a x))
      · exact ih (max a y) x hxs

/-- C8: `loadNetwork` recomputes the id counter as
`max(existing numeric ids) + 1` (non-numeric ids counting as 0), so every
id that parses as a number is strictly below the new counter, and the next
generated id is its decimal print — loading a snapshot whose maximum
numeric id is 7 makes the next generated id `"8"`. -/
theorem loadNetwork_idCounter_spec (s : NetworkState) (nodes : List WhamoNode)
    (edges : List WhamoEdge) (params : Option ComputationalParameters)
    (requests : Option (List OutputRequest)) (projectName : Option String) :
    (loadNetwork s nodes edges params requests projectName).idCounter =
      maxNumericId nodes edges + 1 ∧
    (∀ n ∈ nodes, ∀ k : Int, parseIntJS n.id = some k →
      k < (loadNetwork s nodes edges params requests projectName).idCounter) ∧
    (∀ e ∈ edges, ∀ k : Int, parseIntJS e.id = some k →
      k < (loadNetwork s nodes edges params requests projectName).idCounter) ∧
    (getId (loadNetwork s nodes edges params requests projectName)).1 =
      toString (maxNumericId nodes edges + 1) := by
  refine ⟨rfl, ?_, ?_, rfl⟩
  · intro n hn k hk
    have hmem : k ∈ (nodes.map (fun n => (parseIntJS n.id).getD 0)) ++
        (edges.map (fun e => (parseIntJS e.id).getD 0)) := by
      apply List.mem_append_left
      have : (parseIntJS n.id).getD 0 = k := by rw [hk]; rfl
      exact this ▸ List.mem_map_of_mem _ hn
    have hle : k ≤ maxNumericId nodes edges :=
      mem_le_foldl_max _ 0 k hmem
    show k < maxNumericId nodes edges + 1
    omega
  · intro e he k hk
    have hmem : k ∈ (nodes.map (fun n => (parseIntJS n.id).getD 0)) ++
        (edges.map (fun e => (parseIntJS e.id).getD 0)) := by
      apply List.mem_append_right
      have : (parseIntJS e.id).getD 0 = k := by rw [hk]; rfl
      exact this ▸ List.mem_map_of_mem _ he
    have hle : k ≤ maxNumericId nodes edges :=
      mem_le_foldl_max _ 0 k hmem
    show k < maxNumericId nodes edges + 1
    omega

/-- Witness for `loadNetwork_idCounter_spec`, reproducing spec Example 3:
maximum existing numeric id 7 makes the next generated id `"8"`. -/
theorem loadNetwork_idCounter_witness :
    (loadNetwork initialState [mkNode "7" "junction"] [] none none
      none).idCounter = 8 ∧
    (getId (loadNetwork initialState [mkNode "7" "junction"] [] none none
      none)).1 = "8" :=
  have h := loadNetwork_idCounter_spec initialState [mkNode "7" "junction"] []
    none none none
  ⟨h.1.trans (by decide), h.2.2.2.trans (by decide)⟩

theorem map_id_of_fix {α : Type} (f : α → α) :
    ∀ l : List α, (∀ x ∈ l, f x = x) → l.map f = l := by
  intro l
  induction l with
  | nil => intro _; rfl
  | cons x xs ih =>
      intro h
      rw [List.map_cons, h x (List.mem_cons_self x xs),
        ih (fun y hy => h y (List.mem_cons_of_mem x hy))]

/-- C9: a mutation addressed to a nonexistent id leaves the node and edge
collections unchanged, yet still consumes a history slot: the pre-call
snapshot is pushed onto the past stack (truncated to 50) and the future
stack — any pending redo — is destroyed. -/
theorem update_nonexistent_id (s : NetworkState) (id : String)
    (nd : NodeDataPatch) (ed : EdgeDataPatch)
    (hn : ∀ n ∈ s.nodes, n.id ≠ id) (he : ∀ e ∈ s.edges, e.id ≠ id) :
    (updateNodeData s id nd).nodes = s.nodes ∧
    (updateNodeData s id nd).edges = s.edges ∧
    (updateNodeData s id nd).past = (snapshotOf s :: s.past).take 50 ∧
    (updateNodeData s id nd).future = [] ∧
    (updateEdgeData s id ed).nodes = s.nodes ∧
    (updateEdgeData s id ed).edges = s.edges ∧
    (updateEdgeData s id ed).past = (snapshotOf s :: s.past).take 50 ∧
    (updateEdgeData s id ed).future = [] := by
  refine ⟨?_, rfl, rfl, rfl, rfl, ?_, rfl, rfl⟩
  · show s.nodes.map _ = s.nodes
    apply map_id_of_fix
    intro n hmem
    simp [hn n hmem]
  · show s.edges.map _ = s.edges
    apply map_id_of_fix
    intro e hmem
    simp [he e hmem]

/-- Witness for `update_nonexistent_id`: updates addressed to id `"99"` on
a store that has only ids `"1"` and `"2"`. -/
theorem update_nonexistent_id_witness :
    (updateNodeData { initialState with
        nodes := [mkNode "1" "junction"], edges := [mkEdge "2" "1" "1"] }
      "99" {}).nodes = [mkNode "1" "junction"] ∧
    (updateEdgeData { initialState with
        nodes := [mkNode "1" "junction"], edges := [mkEdge "2" "1" "1"] }
      "99" {}).edges = [mkEdge "2" "1" "1"] ∧
    (updateNodeData { initialState with
        nodes := [mkNode "1" "junction"], edges := [mkEdge "2" "1" "1"] }
      "99" {}).future = [] :=
  have h := update_nonexistent_id { initialState with
      nodes := [mkNode "1" "junction"], edges := [mkEdge "2" "1" "1"] }
    "99" {} {} (by decide) (by decide)
  ⟨h.1, h.2.2.2.2.2.1, h.2.2.2.1⟩
